import Mathlib

/-!
Verification development for `stator.js` (gdbgui vendored reactive-state
library).  The JavaScript source is shallowly embedded: JS values are an
inductive type (`JsVal`) over an explicit heap of objects (`Heap`), so that
reference identity, aliasing and `JSON.parse(JSON.stringify(.))` deep
copying are all observable.  The global store's Proxy `set`/`get` traps
become `stator_write` / `stator_read`, threaded through an explicit
`StatorState`; a write returns the state as mutated up to the point of any
thrown error, mirroring the statement order of the source.  The `Reactor`
constructor, its local-state `set` trap and `Reactor.prototype.render`
are embedded likewise.
-/

/-- Primitive JSON-representable values. -/
inductive JsPrim : Type
  | num (n : Int)
  | str (s : String)
  | bool (b : Bool)
  | null
deriving DecidableEq, Repr

/-- A JavaScript value: a primitive, a reference to a heap object, or
`undefined`. -/
inductive JsVal : Type
  | prim (p : JsPrim)
  | ref (a : Nat)
  | undef
deriving DecidableEq, Repr

/-- JavaScript `typeof` restricted to the values of the model.  Note that
`typeof null` is `"object"`, as in JavaScript. -/
def jsTypeof : JsVal → String
  | .prim (.num _) => "number"
  | .prim (.str _) => "string"
  | .prim (.bool _) => "boolean"
  | .prim .null => "object"
  | .ref _ => "object"
  | .undef => "undefined"

/-- Association-list lookup (first match), used for object fields and
the heap. -/
def assocLookup {α β : Type} [DecidableEq α] (key : α) : List (α × β) → Option β
  | [] => none
  | (k, v) :: rest => if k = key then some v else assocLookup key rest

/-- Association-list update of the first matching entry; no entry is added
or removed (mirrors `target[key] = v` on an object that already has `key`). -/
def assocSet {α β : Type} [DecidableEq α] (key : α) (v : β) : List (α × β) → List (α × β)
  | [] => []
  | (k, w) :: rest => if k = key then (k, v) :: rest else (k, w) :: assocSet key v rest

/-- Association-list in-place modification of the first matching entry. -/
def assocUpdate {α β : Type} [DecidableEq α] (key : α) (f : β → β) : List (α × β) → List (α × β)
  | [] => []
  | (k, w) :: rest => if k = key then (k, f w) :: rest else (k, w) :: assocUpdate key f rest

/-- Fields of a JS object. -/
abbrev JsObj : Type := List (String × JsVal)

/-- A heap of JS objects: an address-indexed store plus the next fresh
address.  `JsVal.ref a` is meaningful relative to a heap. -/
structure Heap where
  mem : List (Nat × JsObj)
  next : Nat
deriving DecidableEq, Repr

/-- Look an object up by address. -/
def Heap.lookup (h : Heap) (a : Nat) : Option JsObj :=
  assocLookup a h.mem

/-- Allocate a new object at the next fresh address. -/
def Heap.alloc (h : Heap) (obj : JsObj) : Heap :=
  { mem := (h.next, obj) :: h.mem, next := h.next + 1 }

/-- Mutate one field of the object stored at address `a` (the model of a
caller writing through a reference it holds). -/
def Heap.setField (h : Heap) (a : Nat) (k : String) (v : JsVal) : Heap :=
  { h with mem := assocUpdate a (assocSet k v) h.mem }

/-- Well-formed heap: every allocated address is below `next`. -/
def Heap.WF (h : Heap) : Prop := ∀ p ∈ h.mem, p.1 < h.next

instance (h : Heap) : Decidable h.WF := by
  unfold Heap.WF; infer_instance

mutual
/-- `_clone_obj` from the source: `JSON.parse(JSON.stringify(obj))`, with
`undefined` passed through.  Copying a reference serialises the object
graph into freshly allocated addresses; `fuel` bounds the reference depth,
so a cyclic structure yields `none` (JSON.stringify throws on cycles). -/
def cloneVal (fuel : Nat) (h : Heap) (v : JsVal) : Option (JsVal × Heap) :=
  match fuel, v with
  | _, .prim p => some (.prim p, h)
  | _, .undef => some (.undef, h)
  | 0, .ref _ => none
  | fuel' + 1, .ref a =>
    match h.lookup a with
    | none => none
    | some obj =>
      match cloneFields fuel' h obj with
      | none => none
      | some (fields, h1) => some (.ref h1.next, h1.alloc fields)
termination_by (fuel, 0)

/-- Clone the fields of an object left to right.  A field holding
`undefined` is dropped, as `JSON.stringify` omits such properties. -/
def cloneFields (fuel : Nat) (h : Heap) (l : JsObj) : Option (JsObj × Heap) :=
  match l with
  | [] => some ([], h)
  | (k, v) :: rest =>
    if v = JsVal.undef then cloneFields fuel h rest
    else
      match cloneVal fuel h v with
      | none => none
      | some (v1, h1) =>
        match cloneFields fuel h1 rest with
        | none => none
        | some (fields, h2) => some ((k, v1) :: fields, h2)
termination_by (fuel, l.length + 1)
end

/-- Fully dereferenced shape of a value: the observation used to compare a
stored value before and after external heap mutation. -/
inductive JsTree : Type
  | prim (p : JsPrim)
  | obj (fields : List (String × JsTree))
  | undef

mutual
/-- Denotation of a value in a heap as a tree, up to reference depth
`fuel`. -/
def denote (fuel : Nat) (h : Heap) (v : JsVal) : Option JsTree :=
  match fuel, v with
  | _, .prim p => some (.prim p)
  | _, .undef => some .undef
  | 0, .ref _ => none
  | fuel' + 1, .ref a =>
    match h.lookup a with
    | none => none
    | some obj =>
      match denoteFields fuel' h obj with
      | none => none
      | some fields => some (.obj fields)
termination_by (fuel, 0)

/-- Denotation of an object's fields. -/
def denoteFields (fuel : Nat) (h : Heap) (l : JsObj) : Option (List (String × JsTree)) :=
  match l with
  | [] => some []
  | (k, v) :: rest =>
    match denote fuel h v with
    | none => none
    | some t =>
      match denoteFields fuel h rest with
      | none => none
      | some ts => some ((k, t) :: ts)
termination_by (fuel, l.length + 1)
end

/-- `_check_type_match` from the source: with a defined old value, a change
of `typeof` is a thrown type error; an `undefined` old value short-circuits
the check. -/
def _check_type_match (a b : JsVal) (key : String) : Except String Unit :=
  if a ≠ JsVal.undef then
    if jsTypeof a ≠ jsTypeof b then
      .error ("Type Error: attempted to change " ++ key ++ " from " ++ jsTypeof a
        ++ " to " ++ jsTypeof b)
    else .ok ()
  else .ok ()

/-- Global store options (`stator.options`). -/
structure StatorOptions where
  debounce_ms : Nat
  max_suppressed_event_count : Int
  type_check : Bool
  debug : Bool
deriving DecidableEq, Repr

/-- Debounce-scheduler state: the pending-timeout handle (modelled as the
deadline instant), the suppressed-event counter, and a count of dispatched
`state_changed` events (the observable notification history). -/
structure Sched where
  timeout : Option Nat
  suppressed : Nat
  dispatched : Nat
deriving DecidableEq, Repr

/-- The scheduler step run once per accepted mutation (source lines 69-86
together with `_dispatch_event` / `_clear_debounce_timeout`): cancel a
pending timeout and count the suppression, then either dispatch at once
(when enough events were suppressed) or schedule a fresh timeout for
`now + D`. -/
def sched_on_change (maxc : Int) (D : Nat) (now : Nat) (sc : Sched) : Sched :=
  let sc1 :=
    match sc.timeout with
    | some _ => { sc with timeout := none, suppressed := sc.suppressed + 1 }
    | none => sc
  if (sc1.suppressed : Int) ≥ maxc then
    { sc1 with
        timeout := none
        suppressed := 0
        dispatched := sc1.dispatched + 1 }
  else
    { sc1 with timeout := some (now + D) }

/-- Full state of the global store: the proxied target object, the heap its
reference values live in, and the scheduler fields of the `stator`
singleton. -/
structure StatorState where
  data : JsObj
  heap : Heap
  debounce_timeout : Option Nat
  suppressed_event_count : Nat
  dispatched : Nat
deriving DecidableEq, Repr

/-- The `set` trap of the global state Proxy.  It returns the state as
mutated up to the point of any thrown error; per the statement order of the
source, every throw happens before the target or the scheduler fields are
touched. -/
def stator_write (opts : StatorOptions) (now : Nat) (key : String) (value : JsVal)
    (s : StatorState) : Except String Unit × StatorState :=
  match assocLookup key s.data with
  | none =>
    (.error ("cannot create new key after initialization (attempted to create " ++ key ++ ")"), s)
  | some oldval =>
    if oldval = value then (.ok (), s)
    else
      match (if opts.type_check then _check_type_match oldval value key else .ok ()) with
      | .error e => (.error e, s)
      | .ok _ =>
        match cloneVal (s.heap.mem.length + 1) s.heap value with
        | none => (.error "Converting circular structure to JSON", s)
        | some (v1, h1) =>
          let sc := sched_on_change opts.max_suppressed_event_count opts.debounce_ms now
            { timeout := s.debounce_timeout, suppressed := s.suppressed_event_count,
              dispatched := s.dispatched }
          (.ok (), { data := assocSet key v1 s.data
                     heap := h1
                     debounce_timeout := sc.timeout
                     suppressed_event_count := sc.suppressed
                     dispatched := sc.dispatched })

/-- The `get` trap of the global state Proxy: return the stored value, or
throw for a key that was not set during initialization. -/
def stator_read (key : String) (s : StatorState) : Except String JsVal :=
  match assocLookup key s.data with
  | some v => .ok v
  | none => .error ("attempted to access key that was not set during initialization: " ++ key)

/-- `stator.create_state`: deep-copy the initial snapshot to seed the
proxied target (the `_state_created` guard is not modelled; reachability
starts from a single creation). -/
def create_state (initial : JsObj) (h : Heap) : Option StatorState :=
  match cloneFields (h.mem.length + 1) h initial with
  | none => none
  | some (data, h') =>
    some { data := data
           heap := h'
           debounce_timeout := none
           suppressed_event_count := 0
           dispatched := 0 }

/-- Expiry of a pending debounce timeout: `_dispatch_event` runs, clearing
the timeout and resetting the suppressed counter. -/
def sched_fire (s : StatorState) : StatorState :=
  match s.debounce_timeout with
  | some _ =>
    { s with
        debounce_timeout := none
        suppressed_event_count := 0
        dispatched := s.dispatched + 1 }
  | none => s

/-- States of the global store reachable from a `create_state` call by any
sequence of writes and timeout expiries (reads do not change state). -/
inductive Reachable (opts : StatorOptions) (initial : JsObj) : StatorState → Prop
  | create (h : Heap) (s : StatorState) : create_state initial h = some s →
      Reachable opts initial s
  | write (s : StatorState) (now : Nat) (key : String) (v : JsVal) :
      Reachable opts initial s → Reachable opts initial (stator_write opts now key v s).2
  | fire (s : StatorState) :
      Reachable opts initial s → Reachable opts initial (sched_fire s)

/-- A Reactor's private state container together with its render-debounce
timeout handle. -/
structure ReactorLocal where
  data : JsObj
  render_timeout : Option Nat
deriving DecidableEq, Repr

/-- The `set` trap of a Reactor's local-state Proxy (source lines 226-240):
key guard, unconditional type check, direct assignment of the incoming
value (no clone, no old-value comparison), then clear any pending render
timeout and schedule `bound_render` after the fixed `DEBOUNCE_MS = 10`. -/
def reactor_state_set (now : Nat) (key : String) (value : JsVal)
    (r : ReactorLocal) : Except String Unit × ReactorLocal :=
  match assocLookup key r.data with
  | none =>
    (.error ("cannot create new key after initialization (attempted to create " ++ key ++ ")"), r)
  | some oldval =>
    match _check_type_match oldval value key with
    | .error e => (.error e, r)
    | .ok _ =>
      (.ok (), { data := assocSet key value r.data
                 render_timeout := some (now + 10) })

/-- The recognized Reactor option keys (keys of `default_options`). -/
def reactor_option_keys : List String :=
  ["should_render", "updated_html", "listen_to_global_state", "state", "debug"]

/-- Observable outcome of running the `Reactor` constructor. -/
structure ReactorInitResult where
  console_errors : List String
  subscribed : Bool
  state_set_up : Bool
  rendered : Bool
  aborted : Bool
deriving DecidableEq, Repr

/-- The `Reactor` constructor's control flow: the node-count guard throws;
invalid option keys are each reported via `console.error` and the
constructor then returns early (no subscription, no local state, no initial
render — and no exception); the missing-callback guard throws; otherwise
the constructor subscribes when requested, sets up local state and performs
the initial synchronous render. -/
def reactor_init (nodes_matched : Nat) (option_keys : List String)
    (callback_is_function : Bool) (listen_to_global_state : Bool) :
    Except String ReactorInitResult :=
  if nodes_matched ≠ 1 then
    .error ("Reactor: querySelector matched " ++ toString nodes_matched ++ " nodes. Expected 1.")
  else
    let invalid_options := option_keys.filter (fun o => ¬ o ∈ reactor_option_keys)
    if invalid_options.length > 0 then
      .ok { console_errors := invalid_options.map
              (fun o => "Reactor got invalid option \"" ++ o ++ "\"")
            subscribed := false
            state_set_up := false
            rendered := false
            aborted := true }
    else if ¬ callback_is_function then
      .error "Reactor did not receive a render callback function."
    else
      .ok { console_errors := []
            subscribed := listen_to_global_state
            state_set_up := true
            rendered := true
            aborted := false }

/-- The render-relevant state of a Reactor: the pending render timeout, the
cached last-rendered html (`old_node_html`, initially undefined), the
`force_update` flag, the anchor node's current innerHTML, counters of DOM
writes and `updated_html` hook invocations, and the local state data the
callbacks may read. -/
structure ReactorState where
  render_timeout : Option Nat
  old_node_html : Option String
  force_update : Bool
  node_html : String
  dom_writes : Nat
  hook_calls : Nat
  data : JsObj
deriving DecidableEq, Repr

/-- `Reactor.prototype.render`: clear any pending render timeout; if
`should_render` holds, produce the html; write it to the DOM, cache it and
run the `updated_html` hook only when forced or when it differs from the
cached copy, then clear the force flag. -/
def Reactor.render (should_render : ReactorState → Bool)
    (html_callback : ReactorState → String) (s : ReactorState) : ReactorState :=
  let s0 := { s with render_timeout := none }
  if should_render s0 then
    let node_html := html_callback s0
    if s0.force_update ∨ some node_html ≠ s0.old_node_html then
      { s0 with
          node_html := node_html
          old_node_html := some node_html
          dom_writes := s0.dom_writes + 1
          hook_calls := s0.hook_calls + 1
          force_update := false }
    else s0
  else s0

/-! ### Basic lemmas about the guarded write path -/

theorem ne_of_jsTypeof_ne {a b : JsVal} (h : jsTypeof a ≠ jsTypeof b) : a ≠ b :=
  fun e => h (by rw [e])

theorem check_type_match_error_of {a b : JsVal} (key : String)
    (hdef : a ≠ JsVal.undef) (hty : jsTypeof a ≠ jsTypeof b) :
    _check_type_match a b key = .error ("Type Error: attempted to change " ++ key
      ++ " from " ++ jsTypeof a ++ " to " ++ jsTypeof b) := by
  unfold _check_type_match
  rw [if_pos hdef, if_pos hty]

theorem check_type_match_ok_of {a b : JsVal} (key : String)
    (h : a = JsVal.undef ∨ jsTypeof a = jsTypeof b) :
    _check_type_match a b key = .ok () := by
  unfold _check_type_match
  rcases h with h | h
  · simp [h]
  · by_cases hd : a = JsVal.undef
    · simp [hd]
    · simp [hd, h]

theorem stator_write_unknown_key (opts : StatorOptions) (now : Nat) (key : String)
    (value : JsVal) (s : StatorState) (h : assocLookup key s.data = none) :
    stator_write opts now key value s =
      (.error ("cannot create new key after initialization (attempted to create "
        ++ key ++ ")"), s) := by
  unfold stator_write
  simp only [h]

theorem stator_write_type_mismatch (opts : StatorOptions) (now : Nat) (key : String)
    (value : JsVal) (s : StatorState) (oldval : JsVal)
    (htc : opts.type_check = true)
    (hk : assocLookup key s.data = some oldval)
    (hdef : oldval ≠ JsVal.undef)
    (hty : jsTypeof oldval ≠ jsTypeof value) :
    stator_write opts now key value s =
      (.error ("Type Error: attempted to change " ++ key
        ++ " from " ++ jsTypeof oldval ++ " to " ++ jsTypeof value), s) := by
  have hne : oldval ≠ value := ne_of_jsTypeof_ne hty
  have he := check_type_match_error_of key hdef hty
  unfold stator_write
  simp only [hk, if_neg hne, htc, if_true, he]

theorem stator_write_accepted (opts : StatorOptions) (now : Nat) (key : String)
    (value : JsVal) (s : StatorState) (oldval v1 : JsVal) (h1 : Heap)
    (hk : assocLookup key s.data = some oldval)
    (hne : oldval ≠ value)
    (htc : (if opts.type_check then _check_type_match oldval value key else Except.ok ()) =
      Except.ok ())
    (hcl : cloneVal (s.heap.mem.length + 1) s.heap value = some (v1, h1)) :
    stator_write opts now key value s =
      (.ok (), { data := assocSet key v1 s.data
                 heap := h1
                 debounce_timeout := (sched_on_change opts.max_suppressed_event_count
                   opts.debounce_ms now
                   (Sched.mk s.debounce_timeout s.suppressed_event_count s.dispatched)).timeout
                 suppressed_event_count := (sched_on_change opts.max_suppressed_event_count
                   opts.debounce_ms now
                   (Sched.mk s.debounce_timeout s.suppressed_event_count s.dispatched)).suppressed
                 dispatched := (sched_on_change opts.max_suppressed_event_count
                   opts.debounce_ms now
                   (Sched.mk s.debounce_timeout s.suppressed_event_count s.dispatched)).dispatched }) := by
  unfold stator_write
  simp only [hk, if_neg hne, htc, hcl]

/-! ### Concrete states used by witnesses -/

/-- Options as in the source defaults: 10 ms debounce, at most 10
suppressions, type checking on. -/
def opts10 : StatorOptions :=
  { debounce_ms := 10, max_suppressed_event_count := 10, type_check := true, debug := false }

/-- A store created from the snapshot with a single key `count = 0`. -/
def sCount : StatorState :=
  { data := [("count", JsVal.prim (JsPrim.num 0))]
    heap := { mem := [], next := 0 }
    debounce_timeout := none
    suppressed_event_count := 0
    dispatched := 0 }

/-- A one-object heap: address 0 holds the object `(f : 1)`. -/
def h0 : Heap := { mem := [(0, [("f", JsVal.prim (JsPrim.num 1))])], next := 1 }

/-- Reactor local state with a single numeric key `x = 0`. -/
def r0 : ReactorLocal := { data := [("x", JsVal.prim (JsPrim.num 0))], render_timeout := none }

/-- Reactor local state with a single unset key `y`. -/
def r1 : ReactorLocal := { data := [("y", JsVal.undef)], render_timeout := none }

/-! ### Claim C2: type-mismatch writes are rejected without side effects -/

/-- Claim C2: with type checking enabled, writing a value whose runtime type
differs from a defined currently-stored value fails with a type error,
leaves every stored value unchanged, and neither dispatches nor schedules a
notification. -/
theorem stator_write_type_mismatch_rejected (opts : StatorOptions) (now : Nat)
    (key : String) (value : JsVal) (s : StatorState) (oldval : JsVal)
    (htc : opts.type_check = true)
    (hk : assocLookup key s.data = some oldval)
    (hdef : oldval ≠ JsVal.undef)
    (hty : jsTypeof oldval ≠ jsTypeof value) :
    (stator_write opts now key value s).1.isOk = false ∧
    (stator_write opts now key value s).2 = s ∧
    (stator_write opts now key value s).2.data = s.data ∧
    (stator_write opts now key value s).2.dispatched = s.dispatched ∧
    (stator_write opts now key value s).2.debounce_timeout = s.debounce_timeout := by
  rw [stator_write_type_mismatch opts now key value s oldval htc hk hdef hty]
  exact ⟨rfl, rfl, rfl, rfl, rfl⟩

/-- Witness for C2: writing the string `"s"` over `count = 0` (a number)
fails and changes nothing. -/
theorem stator_write_type_mismatch_rejected_witness :
    opts10.type_check = true ∧
    assocLookup "count" sCount.data = some (JsVal.prim (JsPrim.num 0)) ∧
    JsVal.prim (JsPrim.num 0) ≠ JsVal.undef ∧
    jsTypeof (JsVal.prim (JsPrim.num 0)) ≠ jsTypeof (JsVal.prim (JsPrim.str "s")) ∧
    ((stator_write opts10 5 "count" (JsVal.prim (JsPrim.str "s")) sCount).1.isOk = false ∧
     (stator_write opts10 5 "count" (JsVal.prim (JsPrim.str "s")) sCount).2 = sCount ∧
     (stator_write opts10 5 "count" (JsVal.prim (JsPrim.str "s")) sCount).2.data = sCount.data ∧
     (stator_write opts10 5 "count" (JsVal.prim (JsPrim.str "s")) sCount).2.dispatched =
       sCount.dispatched ∧
     (stator_write opts10 5 "count" (JsVal.prim (JsPrim.str "s")) sCount).2.debounce_timeout =
       sCount.debounce_timeout) :=
  ⟨rfl, by decide, by decide, by decide,
    stator_write_type_mismatch_rejected opts10 5 "count" (JsVal.prim (JsPrim.str "s")) sCount
      (JsVal.prim (JsPrim.num 0)) rfl (by decide) (by decide) (by decide)⟩

/-! ### Claim C4: writing the currently-stored value is a pure no-op -/

/-- Claim C4: writing a value `===`-equal to the currently stored value of a
tracked key succeeds, changes no stored value, dispatches nothing and
schedules no debounce timer. -/
theorem stator_write_same_value_noop (opts : StatorOptions) (now : Nat)
    (key : String) (value : JsVal) (s : StatorState)
    (hk : assocLookup key s.data = some value) :
    stator_write opts now key value s = (.ok (), s) ∧
    (stator_write opts now key value s).2.dispatched = s.dispatched ∧
    (stator_write opts now key value s).2.debounce_timeout = s.debounce_timeout := by
  have h : stator_write opts now key value s = (.ok (), s) := by
    unfold stator_write
    simp only [hk, if_pos rfl, if_true]
  rw [h]
  exact ⟨rfl, rfl, rfl⟩

/-- Witness for C4: rewriting `count = 0` with `0` is a success no-op. -/
theorem stator_write_same_value_noop_witness :
    assocLookup "count" sCount.data = some (JsVal.prim (JsPrim.num 0)) ∧
    (stator_write opts10 5 "count" (JsVal.prim (JsPrim.num 0)) sCount = (.ok (), sCount) ∧
     (stator_write opts10 5 "count" (JsVal.prim (JsPrim.num 0)) sCount).2.dispatched =
       sCount.dispatched ∧
     (stator_write opts10 5 "count" (JsVal.prim (JsPrim.num 0)) sCount).2.debounce_timeout =
       sCount.debounce_timeout) :=
  ⟨by decide,
    stator_write_same_value_noop opts10 5 "count" (JsVal.prim (JsPrim.num 0)) sCount (by decide)⟩

/-! ### Claim C10: rejected writes leave the scheduler untouched -/

/-- Claim C10: a rejected write — unknown key, or type mismatch with type
checking enabled — leaves the container and the whole scheduler state
(pending-timeout handle, suppressed counter, dispatch count) exactly as
they were. -/
theorem stator_write_rejection_frame (opts : StatorOptions) (now : Nat)
    (key : String) (value : JsVal) (s : StatorState) :
    (assocLookup key s.data = none →
      (stator_write opts now key value s).1.isOk = false ∧
      (stator_write opts now key value s).2 = s) ∧
    (∀ oldval, assocLookup key s.data = some oldval → opts.type_check = true →
      oldval ≠ JsVal.undef → jsTypeof oldval ≠ jsTypeof value →
      (stator_write opts now key value s).1.isOk = false ∧
      (stator_write opts now key value s).2.data = s.data ∧
      (stator_write opts now key value s).2.debounce_timeout = s.debounce_timeout ∧
      (stator_write opts now key value s).2.suppressed_event_count =
        s.suppressed_event_count ∧
      (stator_write opts now key value s).2.dispatched = s.dispatched) := by
  constructor
  · intro h
    rw [stator_write_unknown_key opts now key value s h]
    exact ⟨rfl, rfl⟩
  · intro oldval hk htc hdef hty
    rw [stator_write_type_mismatch opts now key value s oldval htc hk hdef hty]
    exact ⟨rfl, rfl, rfl, rfl, rfl⟩

/-- Witness for C10: an unknown-key write and a type-mismatch write against
the concrete `count` store both leave it untouched. -/
theorem stator_write_rejection_frame_witness :
    (assocLookup "nope" sCount.data = none ∧
      (stator_write opts10 5 "nope" (JsVal.prim (JsPrim.num 1)) sCount).1.isOk = false ∧
      (stator_write opts10 5 "nope" (JsVal.prim (JsPrim.num 1)) sCount).2 = sCount) ∧
    (assocLookup "count" sCount.data = some (JsVal.prim (JsPrim.num 0)) ∧
      (stator_write opts10 5 "count" (JsVal.prim (JsPrim.bool true)) sCount).1.isOk = false ∧
      (stator_write opts10 5 "count" (JsVal.prim (JsPrim.bool true)) sCount).2.dispatched =
        sCount.dispatched) :=
  ⟨⟨by decide,
    (stator_write_rejection_frame opts10 5 "nope" (JsVal.prim (JsPrim.num 1)) sCount).1
      (by decide)⟩,
   ⟨by decide, by
    have h := (stator_write_rejection_frame opts10 5 "count" (JsVal.prim (JsPrim.bool true))
      sCount).2 (JsVal.prim (JsPrim.num 0)) (by decide) rfl (by decide) (by decide)
    exact ⟨h.1, h.2.2.2.2⟩⟩⟩

/-! ### Claim C1: the Reactor local-state write path -/

/-- Counterexample to C1 as stated: the local-state `set` trap does not
follow the MutationGuard contract.  Writing the value already stored under
`x` succeeds but still schedules a render timeout (not a no-op), and an
accepted write stores the caller's reference itself — mutating the heap
through that reference afterwards changes the denotation of the stored
value, so no structurally independent deep copy was taken. -/
theorem reactor_state_set_not_mutation_guard :
    (reactor_state_set 0 "x" (JsVal.prim (JsPrim.num 0)) r0).1 = .ok () ∧
    (reactor_state_set 0 "x" (JsVal.prim (JsPrim.num 0)) r0).2.render_timeout = some 10 ∧
    assocLookup "y" (reactor_state_set 0 "y" (JsVal.ref 0) r1).2.data = some (JsVal.ref 0) ∧
    denote 2 (Heap.setField h0 0 "f" (JsVal.prim (JsPrim.num 2))) (JsVal.ref 0) ≠
      denote 2 h0 (JsVal.ref 0) := by
  refine ⟨rfl, rfl, rfl, ?_⟩
  have e1 : denote 2 (Heap.setField h0 0 "f" (JsVal.prim (JsPrim.num 2))) (JsVal.ref 0) =
      some (JsTree.obj [("f", JsTree.prim (JsPrim.num 2))]) := by
    simp [denote, denoteFields, Heap.setField, Heap.lookup, h0, assocUpdate, assocSet,
      assocLookup]
  have e2 : denote 2 h0 (JsVal.ref 0) =
      some (JsTree.obj [("f", JsTree.prim (JsPrim.num 1))]) := by
    simp [denote, denoteFields, Heap.lookup, h0, assocLookup]
  rw [e1, e2]
  simp

/-- Claim C1 (amended): a local-state write fails for a key absent from the
initial local snapshot and fails when a defined current value and the new
value have different runtime types, leaving the container and the timeout
untouched; every write that passes these checks — including one whose value
equals the current value — stores the caller's value directly (no deep
copy) and unconditionally reschedules the fixed 10 ms render timeout. -/
theorem reactor_state_set_contract (now : Nat) (key : String) (value : JsVal)
    (r : ReactorLocal) :
    (assocLookup key r.data = none →
      (reactor_state_set now key value r).1.isOk = false ∧
      (reactor_state_set now key value r).2 = r) ∧
    (∀ oldval, assocLookup key r.data = some oldval → oldval ≠ JsVal.undef →
      jsTypeof oldval ≠ jsTypeof value →
      (reactor_state_set now key value r).1.isOk = false ∧
      (reactor_state_set now key value r).2 = r) ∧
    (∀ oldval, assocLookup key r.data = some oldval →
      (oldval = JsVal.undef ∨ jsTypeof oldval = jsTypeof value) →
      reactor_state_set now key value r =
        (.ok (), { data := assocSet key value r.data, render_timeout := some (now + 10) })) := by
  refine ⟨?_, ?_, ?_⟩
  · intro h
    unfold reactor_state_set
    simp only [h]
    exact ⟨by trivial, by trivial⟩
  · intro oldval hk hdef hty
    have he := check_type_match_error_of key hdef hty
    unfold reactor_state_set
    simp only [hk, he]
    exact ⟨by trivial, by trivial⟩
  · intro oldval hk hok
    have he := check_type_match_ok_of key hok
    unfold reactor_state_set
    simp only [hk, he]

/-- Witness for the amended C1: on the concrete local state `x = 0`,
writing an unknown key fails, a boolean over the number fails, and an
accepted numeric write stores the value as passed and schedules the
timeout for `now + 10`. -/
theorem reactor_state_set_contract_witness :
    (assocLookup "zz" r0.data = none ∧
      (reactor_state_set 3 "zz" (JsVal.prim (JsPrim.num 1)) r0).1.isOk = false) ∧
    (assocLookup "x" r0.data = some (JsVal.prim (JsPrim.num 0)) ∧
      (reactor_state_set 3 "x" (JsVal.prim (JsPrim.bool true)) r0).1.isOk = false) ∧
    reactor_state_set 3 "x" (JsVal.prim (JsPrim.num 5)) r0 =
      (.ok (), { data := assocSet "x" (JsVal.prim (JsPrim.num 5)) r0.data
                 render_timeout := some (3 + 10) }) :=
  ⟨⟨by decide,
    ((reactor_state_set_contract 3 "zz" (JsVal.prim (JsPrim.num 1)) r0).1 (by decide)).1⟩,
   ⟨by decide,
    ((reactor_state_set_contract 3 "x" (JsVal.prim (JsPrim.bool true)) r0).2.1
      (JsVal.prim (JsPrim.num 0)) (by decide) (by decide) (by decide)).1⟩,
   (reactor_state_set_contract 3 "x" (JsVal.prim (JsPrim.num 5)) r0).2.2
      (JsVal.prim (JsPrim.num 0)) (by decide) (Or.inr (by decide))⟩

/-! ### Claim C8: Reactor construction with invalid options -/

/-- Counterexample to C8 as stated: constructing a Reactor with the
unrecognized option key `bogus` does not propagate any error to the caller;
the constructor logs one message and returns normally (an `ok` outcome with
construction aborted), rather than failing with a synchronously propagated
error. -/
theorem reactor_init_invalid_option_no_throw :
    reactor_init 1 ["bogus"] true true =
      .ok { console_errors := ["Reactor got invalid option \"bogus\""]
            subscribed := false
            state_set_up := false
            rendered := false
            aborted := true } := by
  rfl

/-- Claim C8 (amended): if the options object holds any key outside
the recognized set, construction aborts — an error is reported (logged)
once per invalid key, and no global-state subscription, no local state
setup and no initial render occur — but no error propagates to the caller:
the constructor returns normally. -/
theorem reactor_init_invalid_option_contract (nodes_matched : Nat)
    (option_keys : List String) (callback_is_function listen : Bool)
    (hn : nodes_matched = 1)
    (hinv : option_keys.filter (fun o => ¬ o ∈ reactor_option_keys) ≠ []) :
    reactor_init nodes_matched option_keys callback_is_function listen =
      .ok { console_errors := (option_keys.filter
              (fun o => ¬ o ∈ reactor_option_keys)).map
              (fun o => "Reactor got invalid option \"" ++ o ++ "\"")
            subscribed := false
            state_set_up := false
            rendered := false
            aborted := true } := by
  subst hn
  unfold reactor_init
  rw [if_neg (by simp)]
  simp only [if_pos (List.length_pos.mpr hinv)]

/-- Witness for the amended C8: one invalid key `bogus` yields one logged
report and an aborted, exception-free construction. -/
theorem reactor_init_invalid_option_contract_witness :
    (["bogus"].filter (fun o => ¬ o ∈ reactor_option_keys) ≠ []) ∧
    reactor_init 1 ["bogus"] true false =
      .ok { console_errors := (["bogus"].filter
              (fun o => ¬ o ∈ reactor_option_keys)).map
              (fun o => "Reactor got invalid option \"" ++ o ++ "\"")
            subscribed := false
            state_set_up := false
            rendered := false
            aborted := true } :=
  ⟨by decide, reactor_init_invalid_option_contract 1 ["bogus"] true false rfl (by decide)⟩

/-! ### Claim C5: the scheduler step on an accepted mutation -/

theorem sched_on_change_cases (maxc : Int) (D now : Nat) (tmo : Option Nat)
    (supp disp : Nat) :
    (((if tmo.isSome then supp + 1 else supp : Nat) : Int) ≥ maxc →
      sched_on_change maxc D now ⟨tmo, supp, disp⟩ = ⟨none, 0, disp + 1⟩) ∧
    (((if tmo.isSome then supp + 1 else supp : Nat) : Int) < maxc →
      sched_on_change maxc D now ⟨tmo, supp, disp⟩ =
        ⟨some (now + D), (if tmo.isSome then supp + 1 else supp), disp⟩) := by
  cases tmo with
  | none =>
    refine ⟨fun h => ?_, fun h => ?_⟩
    · show (if ((supp : Int) ≥ maxc) then (⟨none, 0, disp + 1⟩ : Sched)
        else ⟨some (now + D), supp, disp⟩) = ⟨none, 0, disp + 1⟩
      exact if_pos h
    · show (if ((supp : Int) ≥ maxc) then (⟨none, 0, disp + 1⟩ : Sched)
        else ⟨some (now + D), supp, disp⟩) = ⟨some (now + D), supp, disp⟩
      exact if_neg (not_le.mpr h)
  | some d =>
    refine ⟨fun h => ?_, fun h => ?_⟩
    · show (if (((supp + 1 : Nat) : Int) ≥ maxc) then (⟨none, 0, disp + 1⟩ : Sched)
        else ⟨some (now + D), supp + 1, disp⟩) = ⟨none, 0, disp + 1⟩
      exact if_pos h
    · show (if (((supp + 1 : Nat) : Int) ≥ maxc) then (⟨none, 0, disp + 1⟩ : Sched)
        else ⟨some (now + D), supp + 1, disp⟩) = ⟨some (now + D), supp + 1, disp⟩
      exact if_neg (not_le.mpr h)

theorem stator_write_ok_inv (opts : StatorOptions) (now : Nat) (key : String)
    (value : JsVal) (s s' : StatorState) (oldval : JsVal)
    (hk : assocLookup key s.data = some oldval)
    (hne : oldval ≠ value)
    (hw : stator_write opts now key value s = (.ok (), s')) :
    ∃ v1 h1, cloneVal (s.heap.mem.length + 1) s.heap value = some (v1, h1) ∧
      s'.data = assocSet key v1 s.data ∧ s'.heap = h1 ∧
      s'.debounce_timeout = (sched_on_change opts.max_suppressed_event_count opts.debounce_ms
        now (Sched.mk s.debounce_timeout s.suppressed_event_count s.dispatched)).timeout ∧
      s'.suppressed_event_count = (sched_on_change opts.max_suppressed_event_count
        opts.debounce_ms now
        (Sched.mk s.debounce_timeout s.suppressed_event_count s.dispatched)).suppressed ∧
      s'.dispatched = (sched_on_change opts.max_suppressed_event_count opts.debounce_ms
        now (Sched.mk s.debounce_timeout s.suppressed_event_count s.dispatched)).dispatched := by
  unfold stator_write at hw
  simp only [hk] at hw
  rw [if_neg hne] at hw
  cases htc2 : (if opts.type_check then _check_type_match oldval value key else Except.ok ()) with
  | error e =>
    simp only [htc2] at hw
    injection hw with h1 h2
    exact Except.noConfusion h1
  | ok u =>
    simp only [htc2] at hw
    cases hcl : cloneVal (s.heap.mem.length + 1) s.heap value with
    | none =>
      simp only [hcl] at hw
      injection hw with h1 h2
      exact Except.noConfusion h1
    | some p =>
      obtain ⟨v1, h1⟩ := p
      simp only [hcl] at hw
      have hs' := (congrArg Prod.snd hw).symm
      subst hs'
      exact ⟨v1, h1, rfl, rfl, rfl, rfl, rfl, rfl⟩

/-- Claim C5: on every accepted mutation, if a timeout was pending it is
cancelled and the suppressed counter incremented; when that counter has
reached `max_suppressed_event_count` the notification is dispatched at once
and the timeout and counter reset, otherwise a fresh debounce timeout is
scheduled `debounce_ms` from now.  Since the counter is never negative,
`max_suppressed_event_count ≤ 0` makes every accepted change dispatch
immediately. -/
theorem stator_write_scheduler_contract (opts : StatorOptions) (now : Nat) (key : String)
    (value : JsVal) (s s' : StatorState) (oldval : JsVal)
    (hk : assocLookup key s.data = some oldval)
    (hne : oldval ≠ value)
    (hw : stator_write opts now key value s = (.ok (), s')) :
    (((if s.debounce_timeout.isSome then s.suppressed_event_count + 1
        else s.suppressed_event_count : Nat) : Int) ≥ opts.max_suppressed_event_count →
      s'.debounce_timeout = none ∧ s'.suppressed_event_count = 0 ∧
      s'.dispatched = s.dispatched + 1) ∧
    (((if s.debounce_timeout.isSome then s.suppressed_event_count + 1
        else s.suppressed_event_count : Nat) : Int) < opts.max_suppressed_event_count →
      s'.debounce_timeout = some (now + opts.debounce_ms) ∧
      s'.suppressed_event_count = (if s.debounce_timeout.isSome then
        s.suppressed_event_count + 1 else s.suppressed_event_count) ∧
      s'.dispatched = s.dispatched) ∧
    (opts.max_suppressed_event_count ≤ 0 →
      s'.debounce_timeout = none ∧ s'.dispatched = s.dispatched + 1) := by
  obtain ⟨v1, h1, hcl, hdata, hheap, htmo, hsupp, hdisp⟩ :=
    stator_write_ok_inv opts now key value s s' oldval hk hne hw
  have hc := sched_on_change_cases opts.max_suppressed_event_count opts.debounce_ms now
    s.debounce_timeout s.suppressed_event_count s.dispatched
  have main : ((if s.debounce_timeout.isSome then s.suppressed_event_count + 1
      else s.suppressed_event_count : Nat) : Int) ≥ opts.max_suppressed_event_count →
      s'.debounce_timeout = none ∧ s'.suppressed_event_count = 0 ∧
      s'.dispatched = s.dispatched + 1 := by
    intro h
    rw [htmo, hsupp, hdisp, hc.1 h]
    exact ⟨rfl, rfl, rfl⟩
  refine ⟨main, fun h => ?_, fun h => ?_⟩
  · rw [htmo, hsupp, hdisp, hc.2 h]
    exact ⟨rfl, rfl, rfl⟩
  · have hge : ((if s.debounce_timeout.isSome then s.suppressed_event_count + 1
        else s.suppressed_event_count : Nat) : Int) ≥ opts.max_suppressed_event_count :=
      le_trans h (Int.natCast_nonneg _)
    exact ⟨(main hge).1, (main hge).2.2⟩

/-- The state after the accepted write used in the C5 witness. -/
def sCount1 : StatorState :=
  { data := [("count", JsVal.prim (JsPrim.num 1))]
    heap := { mem := [], next := 0 }
    debounce_timeout := some 15
    suppressed_event_count := 0
    dispatched := 0 }

/-- Witness for C5: writing `count = 1` over `count = 0` with no pending
timeout and `max_suppressed_event_count = 10` schedules a debounce timeout
for `now + 10` and dispatches nothing. -/
theorem stator_write_scheduler_contract_witness :
    (assocLookup "count" sCount.data = some (JsVal.prim (JsPrim.num 0)) ∧
     JsVal.prim (JsPrim.num 0) ≠ JsVal.prim (JsPrim.num 1) ∧
     stator_write opts10 5 "count" (JsVal.prim (JsPrim.num 1)) sCount = (.ok (), sCount1)) ∧
    (sCount1.debounce_timeout = some (5 + opts10.debounce_ms) ∧
     sCount1.suppressed_event_count = 0 ∧
     sCount1.dispatched = sCount.dispatched) := by
  have hcl : cloneVal (sCount.heap.mem.length + 1) sCount.heap (JsVal.prim (JsPrim.num 1)) =
      some (JsVal.prim (JsPrim.num 1), sCount.heap) := by
    simp [cloneVal]
  have hw : stator_write opts10 5 "count" (JsVal.prim (JsPrim.num 1)) sCount =
      (.ok (), sCount1) := by
    have h2 := stator_write_accepted opts10 5 "count" (JsVal.prim (JsPrim.num 1)) sCount
      (JsVal.prim (JsPrim.num 0)) (JsVal.prim (JsPrim.num 1)) sCount.heap rfl
      (by decide) rfl hcl
    exact h2
  have hmain := stator_write_scheduler_contract opts10 5 "count" (JsVal.prim (JsPrim.num 1))
    sCount sCount1 (JsVal.prim (JsPrim.num 0)) rfl (by decide) hw
  have h2 := hmain.2.1 (by decide)
  exact ⟨⟨rfl, by decide, hw⟩, ⟨h2.1, h2.2.1, h2.2.2⟩⟩

/-! ### Claim C9: render is idempotent without intervening changes -/

/-- Claim C9: with the force-update flag unset, two successive `render`
calls with no intervening state change (the callback and predicate return
the same results on the re-rendered state) perform the DOM write and the
`updated_html` hook at most once, and the second call is a no-op. -/
theorem reactor_render_idempotent (shr : ReactorState → Bool)
    (cb : ReactorState → String) (s : ReactorState)
    (hforce : s.force_update = false)
    (hcb : cb (Reactor.render shr cb s) = cb { s with render_timeout := none })
    (hsr : shr (Reactor.render shr cb s) = shr { s with render_timeout := none }) :
    Reactor.render shr cb (Reactor.render shr cb s) = Reactor.render shr cb s ∧
    (Reactor.render shr cb s).dom_writes ≤ s.dom_writes + 1 ∧
    (Reactor.render shr cb s).hook_calls ≤ s.hook_calls + 1 := by
  obtain ⟨rt, old, fu, nh, dw, hkc, dat⟩ := s
  simp only at hforce hcb hsr
  subst hforce
  by_cases hs : shr ⟨none, old, false, nh, dw, hkc, dat⟩ = true
  · by_cases hold : some (cb ⟨none, old, false, nh, dw, hkc, dat⟩) = old
    · have hcond : ¬((false = true) ∨
          some (cb (⟨none, old, false, nh, dw, hkc, dat⟩ : ReactorState)) ≠ old) := by
        intro hc
        rcases hc with hc | hc
        · exact absurd hc (by decide)
        · exact hc hold
      have e1 : Reactor.render shr cb ⟨rt, old, false, nh, dw, hkc, dat⟩ =
          ⟨none, old, false, nh, dw, hkc, dat⟩ := by
        unfold Reactor.render
        simp only [hs, if_true]
        rw [if_neg hcond]
      refine ⟨?_, ?_, ?_⟩
      · rw [e1]
        unfold Reactor.render
        simp only [hs, if_true]
        rw [if_neg hcond]
      · rw [e1]
        exact Nat.le_succ dw
      · rw [e1]
        exact Nat.le_succ hkc
    · have hcond : (false = true) ∨
          some (cb (⟨none, old, false, nh, dw, hkc, dat⟩ : ReactorState)) ≠ old :=
        Or.inr hold
      have e1 : Reactor.render shr cb ⟨rt, old, false, nh, dw, hkc, dat⟩ =
          ⟨none, some (cb ⟨none, old, false, nh, dw, hkc, dat⟩), false,
           cb ⟨none, old, false, nh, dw, hkc, dat⟩, dw + 1, hkc + 1, dat⟩ := by
        unfold Reactor.render
        simp only [hs, if_true]
        rw [if_pos hcond]
      rw [e1] at hcb hsr
      rw [hs] at hsr
      refine ⟨?_, ?_, ?_⟩
      · rw [e1]
        unfold Reactor.render
        simp only
        rw [hsr]
        rw [if_pos rfl]
        rw [hcb]
        have hcond2 : ¬((false = true) ∨
            some (cb (⟨none, old, false, nh, dw, hkc, dat⟩ : ReactorState)) ≠
              some (cb (⟨none, old, false, nh, dw, hkc, dat⟩ : ReactorState))) := by
          intro hc
          rcases hc with hc | hc
          · exact absurd hc (by decide)
          · exact hc rfl
        rw [if_neg hcond2]
      · rw [e1]
      · rw [e1]
  · have hsf : shr ⟨none, old, false, nh, dw, hkc, dat⟩ = false := by
      revert hs
      cases shr ⟨none, old, false, nh, dw, hkc, dat⟩ <;> simp
    have e1 : Reactor.render shr cb ⟨rt, old, false, nh, dw, hkc, dat⟩ =
        ⟨none, old, false, nh, dw, hkc, dat⟩ := by
      unfold Reactor.render
      simp only [hsf, Bool.false_eq_true, if_false]
    refine ⟨?_, ?_, ?_⟩
    · rw [e1]
      unfold Reactor.render
      simp only [hsf, Bool.false_eq_true, if_false]
    · rw [e1]
      exact Nat.le_succ dw
    · rw [e1]
      exact Nat.le_succ hkc

/-- A fresh Reactor render state: nothing cached, force flag unset. -/
def rsInit : ReactorState :=
  { render_timeout := none
    old_node_html := none
    force_update := false
    node_html := ""
    dom_writes := 0
    hook_calls := 0
    data := [] }

/-- Witness for C9: with a constant callback, rendering `rsInit` twice
writes the DOM exactly once and the second call changes nothing. -/
theorem reactor_render_idempotent_witness :
    rsInit.force_update = false ∧
    (Reactor.render (fun _ => true) (fun _ => "x")
        (Reactor.render (fun _ => true) (fun _ => "x") rsInit) =
      Reactor.render (fun _ => true) (fun _ => "x") rsInit ∧
     (Reactor.render (fun _ => true) (fun _ => "x") rsInit).dom_writes ≤ rsInit.dom_writes + 1 ∧
     (Reactor.render (fun _ => true) (fun _ => "x") rsInit).hook_calls ≤ rsInit.hook_calls + 1) :=
  ⟨rfl, reactor_render_idempotent (fun _ => true) (fun _ => "x") rsInit rfl rfl rfl⟩

/-! ### Claim C6: bounded notification latency under continuous writes -/

/-- The scheduler state after the writes `0, 1, ..., i` of a continuous
stream of accepted mutations, write `i` occurring at time `t i`, starting
from the initial scheduler state (no pending timeout, zero suppressed,
nothing dispatched). -/
def run_stream (maxc : Int) (D : Nat) (t : Nat → Nat) : Nat → Sched
  | 0 => sched_on_change maxc D (t 0) ⟨none, 0, 0⟩
  | i + 1 => sched_on_change maxc D (t (i + 1)) (run_stream maxc D t i)

theorem run_stream_invariant (N : Nat) (hN : 1 ≤ N) (D : Nat) (t : Nat → Nat) :
    ∀ i, i < N → run_stream (N : Int) D t i = ⟨some (t i + D), i, 0⟩ := by
  intro i
  induction i with
  | zero =>
    intro _
    show sched_on_change (N : Int) D (t 0) ⟨none, 0, 0⟩ = ⟨some (t 0 + D), 0, 0⟩
    have h0 : ((if (none : Option Nat).isSome then 0 + 1 else 0 : Nat) : Int) < (N : Int) := by
      simp only [Option.isSome_none, Bool.false_eq_true, if_false]
      exact_mod_cast hN
    exact (sched_on_change_cases (N : Int) D (t 0) none 0 0).2 h0
  | succ i ih =>
    intro hi
    have hprev := ih (Nat.lt_of_succ_lt hi)
    show sched_on_change (N : Int) D (t (i + 1)) (run_stream (N : Int) D t i) =
      ⟨some (t (i + 1) + D), i + 1, 0⟩
    rw [hprev]
    have hlt : ((if (some (t i + D)).isSome then i + 1 else i : Nat) : Int) < (N : Int) := by
      simp only [Option.isSome_some, if_true]
      exact_mod_cast hi
    exact (sched_on_change_cases (N : Int) D (t (i + 1)) (some (t i + D)) i 0).2 hlt

theorem stream_time_bound (D : Nat) (t : Nat → Nat)
    (hgap : ∀ i, t (i + 1) < t i + D) : ∀ n, t n ≤ t 0 + n * D := by
  intro n
  induction n with
  | zero => simp
  | succ n ih =>
    calc t (n + 1) ≤ t n + D := Nat.le_of_lt (hgap n)
    _ ≤ t 0 + n * D + D := Nat.add_le_add_right ih D
    _ = t 0 + (n + 1) * D := by ring

/-- Claim C6: a continuous stream of accepted writes, one per interval
shorter than the debounce window `D`, dispatches no notification during
the first `N` writes (each one only replaces a pending timeout whose
deadline lies beyond the next write), the write of index `N` dispatches
via the suppression escape hatch, and its time `t N` is at most
`N * D` after the first write — so at most `N` consecutive accepted
writes occur without a notification. -/
theorem stator_stream_notification_bound (N D : Nat) (t : Nat → Nat)
    (hN : 1 ≤ N)
    (hgap : ∀ i, t (i + 1) < t i + D) :
    (∀ i, i < N → (run_stream (N : Int) D t i).dispatched = 0 ∧
      (run_stream (N : Int) D t i).timeout = some (t i + D) ∧
      t (i + 1) < t i + D) ∧
    (run_stream (N : Int) D t N).dispatched = 1 ∧
    t N ≤ t 0 + N * D := by
  refine ⟨fun i hi => ?_, ?_, stream_time_bound D t hgap N⟩
  · rw [run_stream_invariant N hN D t i hi]
    exact ⟨rfl, rfl, hgap i⟩
  · obtain ⟨M, rfl⟩ : ∃ M, N = M + 1 := ⟨N - 1, (Nat.succ_pred_eq_of_pos hN).symm⟩
    have hprev := run_stream_invariant (M + 1) hN D t M (Nat.lt_succ_self M)
    show (sched_on_change ((M + 1 : Nat) : Int) D (t (M + 1))
      (run_stream ((M + 1 : Nat) : Int) D t M)).dispatched = 1
    rw [hprev]
    have hge : ((if (some (t M + D)).isSome then M + 1 else M : Nat) : Int) ≥
        ((M + 1 : Nat) : Int) := by
      simp only [Option.isSome_some, if_true]
      exact le_refl _
    rw [(sched_on_change_cases ((M + 1 : Nat) : Int) D (t (M + 1))
      (some (t M + D)) M 0).1 hge]

/-- Witness for C6: `N = 1`, `D = 2`, writes at times `0, 1, 2, ...`:
write 0 only schedules, write 1 dispatches, and `t 1 = 1 ≤ t 0 + 1 * 2`. -/
theorem stator_stream_notification_bound_witness :
    (∀ i : Nat, i + 1 < i + 2) ∧
    ((∀ i, i < 1 → (run_stream (1 : Int) 2 (fun j => j) i).dispatched = 0 ∧
       (run_stream (1 : Int) 2 (fun j => j) i).timeout = some (i + 2) ∧
       i + 1 < i + 2) ∧
     (run_stream (1 : Int) 2 (fun j => j) 1).dispatched = 1 ∧
     (fun j => j) 1 ≤ (fun j => j) 0 + 1 * 2) :=
  ⟨fun i => by omega,
   stator_stream_notification_bound 1 2 (fun j => j) (by decide)
     (fun i => by show i + 1 < i + 2; omega)⟩

/-! ### Claim C7: key closure of the global store -/

theorem assocLookup_eq_none_iff {α β : Type} [DecidableEq α] (key : α)
    (l : List (α × β)) : assocLookup key l = none ↔ ¬ key ∈ l.map Prod.fst := by
  induction l with
  | nil => simp [assocLookup]
  | cons kv rest ih =>
    obtain ⟨k, v⟩ := kv
    by_cases hk : k = key
    · subst hk
      simp [assocLookup]
    · simp [assocLookup, hk, ih, Ne.symm hk]

theorem map_fst_assocSet {α β : Type} [DecidableEq α] (key : α) (v : β)
    (l : List (α × β)) : (assocSet key v l).map Prod.fst = l.map Prod.fst := by
  induction l with
  | nil => rfl
  | cons kv rest ih =>
    obtain ⟨k, w⟩ := kv
    by_cases hk : k = key
    · simp [assocSet, hk]
    · simp [assocSet, hk, ih]

theorem cloneFields_keys (fuel : Nat) : ∀ (l : JsObj) (h : Heap) (l' : JsObj) (h' : Heap),
    cloneFields fuel h l = some (l', h') → l'.map Prod.fst ⊆ l.map Prod.fst := by
  intro l
  induction l with
  | nil =>
    intro h l' h' hcf
    unfold cloneFields at hcf
    simp only [Option.some.injEq, Prod.mk.injEq] at hcf
    obtain ⟨h1, h2⟩ := hcf
    subst h1
    exact List.Subset.refl _
  | cons kv rest ih =>
    obtain ⟨k, v⟩ := kv
    intro h l' h' hcf
    unfold cloneFields at hcf
    by_cases hv : v = JsVal.undef
    · rw [if_pos hv] at hcf
      have hsub := ih h l' h' hcf
      exact hsub.trans (List.subset_cons_self _ _)
    · rw [if_neg hv] at hcf
      cases hclv : cloneVal fuel h v with
      | none =>
        simp only [hclv] at hcf
        exact Option.noConfusion hcf
      | some p =>
        obtain ⟨v1, h1⟩ := p
        simp only [hclv] at hcf
        cases hcf2 : cloneFields fuel h1 rest with
        | none =>
          simp only [hcf2] at hcf
          exact Option.noConfusion hcf
        | some q =>
          obtain ⟨fields, h2⟩ := q
          simp only [hcf2, Option.some.injEq, Prod.mk.injEq] at hcf
          obtain ⟨hl', hh'⟩ := hcf
          subst hl'
          have hsub := ih h1 fields h2 hcf2
          simp only [List.map_cons]
          exact List.cons_subset_cons k hsub

theorem stator_write_keys (opts : StatorOptions) (now : Nat) (key : String)
    (value : JsVal) (s : StatorState) :
    (stator_write opts now key value s).2.data.map Prod.fst = s.data.map Prod.fst := by
  unfold stator_write
  cases hk : assocLookup key s.data with
  | none => rfl
  | some oldval =>
    by_cases he : oldval = value
    · simp only [if_pos he]
    · simp only [if_neg he]
      cases htc2 : (if opts.type_check then _check_type_match oldval value key
          else Except.ok ()) with
      | error e => simp only [htc2]
      | ok u =>
        simp only [htc2]
        cases hcl : cloneVal (s.heap.mem.length + 1) s.heap value with
        | none => simp only [hcl]
        | some p =>
          obtain ⟨v1, h1⟩ := p
          simp only [hcl]
          exact map_fst_assocSet key v1 s.data

theorem sched_fire_data (s : StatorState) : (sched_fire s).data = s.data := by
  unfold sched_fire
  cases s.debounce_timeout <;> rfl

theorem reachable_keys (opts : StatorOptions) (initial : JsObj) (s : StatorState)
    (hr : Reachable opts initial s) : s.data.map Prod.fst ⊆ initial.map Prod.fst := by
  induction hr with
  | create h s hc =>
    unfold create_state at hc
    cases hcf : cloneFields (h.mem.length + 1) h initial with
    | none => rw [hcf] at hc; exact Option.noConfusion hc
    | some p =>
      obtain ⟨data, h'⟩ := p
      rw [hcf] at hc
      have hd : s.data = data := by
        have := (Option.some.injEq _ _).mp hc
        rw [← this]
      rw [hd]
      exact cloneFields_keys (h.mem.length + 1) initial h data h' hcf
  | write s now key v _ ih =>
    rw [stator_write_keys opts now key v s]
    exact ih
  | fire s _ ih =>
    rw [sched_fire_data s]
    exact ih

/-- Claim C7: for a key absent from the initial snapshot, `read` and
`write` fail in every reachable container state, and no write or timeout
expiry ever adds or removes a key. -/
theorem stator_key_closure (opts : StatorOptions) (initial : JsObj) (s : StatorState)
    (key : String) (now : Nat) (v : JsVal)
    (hr : Reachable opts initial s)
    (hk : ¬ key ∈ initial.map Prod.fst) :
    (stator_read key s).isOk = false ∧
    (stator_write opts now key v s).1.isOk = false ∧
    (∀ key2 v2 now2, (stator_write opts now2 key2 v2 s).2.data.map Prod.fst =
      s.data.map Prod.fst) ∧
    (sched_fire s).data = s.data := by
  have hnone : assocLookup key s.data = none := by
    rw [assocLookup_eq_none_iff]
    intro hmem
    exact hk (reachable_keys opts initial s hr hmem)
  refine ⟨?_, ?_, ?_, sched_fire_data s⟩
  · unfold stator_read
    simp only [hnone]
    rfl
  · rw [stator_write_unknown_key opts now key v s hnone]
    rfl
  · intro key2 v2 now2
    exact stator_write_keys opts now2 key2 v2 s

/-- Witness for C7: the store created from `(count : 0)` never accepts the
key `nope`. -/
theorem stator_key_closure_witness :
    (¬ "nope" ∈ ([("count", JsVal.prim (JsPrim.num 0))] : JsObj).map Prod.fst) ∧
    ((stator_read "nope" sCount).isOk = false ∧
     (stator_write opts10 5 "nope" (JsVal.prim (JsPrim.num 1)) sCount).1.isOk = false ∧
     (∀ key2 v2 now2, (stator_write opts10 now2 key2 v2 sCount).2.data.map Prod.fst =
       sCount.data.map Prod.fst) ∧
     (sched_fire sCount).data = sCount.data) := by
  have hcs : create_state [("count", JsVal.prim (JsPrim.num 0))] ⟨[], 0⟩ = some sCount := by
    simp [create_state, cloneFields, cloneVal, sCount]
  refine ⟨by decide, ?_⟩
  exact stator_key_closure opts10 [("count", JsVal.prim (JsPrim.num 0))] sCount "nope" 5
    (JsVal.prim (JsPrim.num 1))
    (Reachable.create ⟨[], 0⟩ sCount hcs) (by decide)

/-! ### Claim C3: deep-copy independence of stored values

The key invariant: a clone allocates only fresh addresses, so the cloned
value never references any address that existed before the write, and
mutating a pre-existing object afterwards cannot change the cloned value's
denotation. -/

/-- The references of `v` all point at or above address `n0`. -/
def ValOkAt (n0 : Nat) : JsVal → Prop
  | .ref a => n0 ≤ a
  | _ => True

/-- Every object stored at or above `n0` has fields referencing only at or
above `n0`: the heap region from `n0` up is closed. -/
def ClosedAbove (n0 : Nat) (h : Heap) : Prop :=
  ∀ a obj, n0 ≤ a → h.lookup a = some obj → ∀ p ∈ obj, ValOkAt n0 p.2

theorem assocLookup_mem {α β : Type} [DecidableEq α] {key : α} {l : List (α × β)} {v : β}
    (h : assocLookup key l = some v) : (key, v) ∈ l := by
  induction l with
  | nil => exact Option.noConfusion h
  | cons kv rest ih =>
    obtain ⟨k, w⟩ := kv
    by_cases hk : k = key
    · subst hk
      unfold assocLookup at h
      rw [if_pos rfl] at h
      obtain rfl : w = v := Option.some.injEq _ _ |>.mp h
      exact List.mem_cons_self _ _
    · unfold assocLookup at h
      rw [if_neg hk] at h
      exact List.mem_cons_of_mem _ (ih h)

theorem Heap.lookup_lt_next {h : Heap} (hwf : h.WF) {a : Nat} {obj : JsObj}
    (hl : h.lookup a = some obj) : a < h.next :=
  hwf (a, obj) (assocLookup_mem hl)

theorem lookup_alloc (h : Heap) (obj : JsObj) (b : Nat) :
    (h.alloc obj).lookup b = if h.next = b then some obj else h.lookup b := rfl

theorem assocLookup_assocUpdate {α β : Type} [DecidableEq α] (key : α) (f : β → β)
    (l : List (α × β)) (b : α) :
    assocLookup b (assocUpdate key f l) =
      if b = key then (assocLookup key l).map f else assocLookup b l := by
  induction l with
  | nil =>
    simp [assocUpdate, assocLookup]
  | cons kv rest ih =>
    obtain ⟨k, v⟩ := kv
    by_cases hk : k = key
    · subst hk
      by_cases hb : k = b
      · subst hb
        simp [assocUpdate, assocLookup]
      · simp [assocUpdate, assocLookup, hb, Ne.symm hb]
    · by_cases hb : k = b
      · subst hb
        have hbk : ¬ k = key := hk
        simp [assocUpdate, assocLookup, hk, hbk]
      · simp [assocUpdate, assocLookup, hk, hb, ih]

theorem Heap.lookup_setField (h : Heap) (a : Nat) (k : String) (w : JsVal) (b : Nat) :
    (h.setField a k w).lookup b =
      if b = a then (h.lookup a).map (assocSet k w) else h.lookup b :=
  assocLookup_assocUpdate a (assocSet k w) h.mem b

/-- Specification of `cloneVal` at a given fuel: on success the heap only
grows, pre-existing addresses are untouched, well-formedness and closure
above `n0` are preserved, and the clone references only fresh
(at-or-above-`n0`) addresses. -/
def CloneValSpec (fuel : Nat) : Prop :=
  ∀ h v v' h' n0, n0 ≤ h.next → Heap.WF h → ClosedAbove n0 h →
    cloneVal fuel h v = some (v', h') →
    h.next ≤ h'.next ∧ (∀ a, a < h.next → h'.lookup a = h.lookup a) ∧
    Heap.WF h' ∧ ClosedAbove n0 h' ∧ ValOkAt n0 v'

/-- The same specification for `cloneFields`. -/
def CloneFieldsSpec (fuel : Nat) : Prop :=
  ∀ l h l' h' n0, n0 ≤ h.next → Heap.WF h → ClosedAbove n0 h →
    cloneFields fuel h l = some (l', h') →
    h.next ≤ h'.next ∧ (∀ a, a < h.next → h'.lookup a = h.lookup a) ∧
    Heap.WF h' ∧ ClosedAbove n0 h' ∧ ∀ p ∈ l', ValOkAt n0 p.2

theorem cloneFieldsSpec_of (fuel : Nat) (hP : CloneValSpec fuel) : CloneFieldsSpec fuel := by
  intro l
  induction l with
  | nil =>
    intro h l' h' n0 hn0 hwf hca hcf
    unfold cloneFields at hcf
    simp only [Option.some.injEq, Prod.mk.injEq] at hcf
    obtain ⟨hl', hh'⟩ := hcf
    subst hl'
    subst hh'
    exact ⟨le_refl _, fun a _ => rfl, hwf, hca, by simp⟩
  | cons kv rest ih =>
    obtain ⟨k, v⟩ := kv
    intro h l' h' n0 hn0 hwf hca hcf
    unfold cloneFields at hcf
    by_cases hv : v = JsVal.undef
    · rw [if_pos hv] at hcf
      have S := ih h l' h' n0 hn0 hwf hca hcf
      exact ⟨S.1, S.2.1, S.2.2.1, S.2.2.2.1, S.2.2.2.2⟩
    · rw [if_neg hv] at hcf
      cases hclv : cloneVal fuel h v with
      | none =>
        simp only [hclv] at hcf
        exact Option.noConfusion hcf
      | some p =>
        obtain ⟨v1, h1⟩ := p
        simp only [hclv] at hcf
        cases hcf2 : cloneFields fuel h1 rest with
        | none =>
          simp only [hcf2] at hcf
          exact Option.noConfusion hcf
        | some q =>
          obtain ⟨l2, h2⟩ := q
          simp only [hcf2, Option.some.injEq, Prod.mk.injEq] at hcf
          obtain ⟨hl', hh'⟩ := hcf
          subst hl'
          subst hh'
          have S1 := hP h v v1 h1 n0 hn0 hwf hca hclv
          have S2 := ih h1 l2 h2 n0 (le_trans hn0 S1.1) S1.2.2.1 S1.2.2.2.1 hcf2
          refine ⟨le_trans S1.1 S2.1, ?_, S2.2.2.1, S2.2.2.2.1, ?_⟩
          · intro a ha
            rw [S2.2.1 a (lt_of_lt_of_le ha S1.1), S1.2.1 a ha]
          · intro p hp
            rcases List.mem_cons.mp hp with hp1 | hp2
            · rw [hp1]
              exact S1.2.2.2.2
            · exact S2.2.2.2.2 p hp2

theorem cloneValSpec_all : ∀ fuel, CloneValSpec fuel := by
  intro fuel
  induction fuel with
  | zero =>
    intro h v v' h' n0 hn0 hwf hca hclv
    cases v with
    | prim p =>
      unfold cloneVal at hclv
      simp only [Option.some.injEq, Prod.mk.injEq] at hclv
      obtain ⟨hv', hh'⟩ := hclv
      subst hv'
      subst hh'
      exact ⟨le_refl _, fun a _ => rfl, hwf, hca, trivial⟩
    | undef =>
      unfold cloneVal at hclv
      simp only [Option.some.injEq, Prod.mk.injEq] at hclv
      obtain ⟨hv', hh'⟩ := hclv
      subst hv'
      subst hh'
      exact ⟨le_refl _, fun a _ => rfl, hwf, hca, trivial⟩
    | ref a =>
      unfold cloneVal at hclv
      exact Option.noConfusion hclv
  | succ fuel ih =>
    have hQ := cloneFieldsSpec_of fuel ih
    intro h v v' h' n0 hn0 hwf hca hclv
    cases v with
    | prim p =>
      unfold cloneVal at hclv
      simp only [Option.some.injEq, Prod.mk.injEq] at hclv
      obtain ⟨hv', hh'⟩ := hclv
      subst hv'
      subst hh'
      exact ⟨le_refl _, fun a _ => rfl, hwf, hca, trivial⟩
    | undef =>
      unfold cloneVal at hclv
      simp only [Option.some.injEq, Prod.mk.injEq] at hclv
      obtain ⟨hv', hh'⟩ := hclv
      subst hv'
      subst hh'
      exact ⟨le_refl _, fun a _ => rfl, hwf, hca, trivial⟩
    | ref a =>
      unfold cloneVal at hclv
      cases hl : h.lookup a with
      | none =>
        simp only [hl] at hclv
        exact Option.noConfusion hclv
      | some obj =>
        simp only [hl] at hclv
        cases hcf : cloneFields fuel h obj with
        | none =>
          simp only [hcf] at hclv
          exact Option.noConfusion hclv
        | some p =>
          obtain ⟨fields, h1⟩ := p
          simp only [hcf, Option.some.injEq, Prod.mk.injEq] at hclv
          obtain ⟨hv', hh'⟩ := hclv
          subst hv'
          subst hh'
          have S := hQ obj h fields h1 n0 hn0 hwf hca hcf
          refine ⟨le_trans S.1 (Nat.le_succ _), ?_, ?_, ?_, le_trans hn0 S.1⟩
          · intro b hb
            rw [lookup_alloc]
            rw [if_neg (by have := lt_of_lt_of_le hb S.1; omega)]
            exact S.2.1 b hb
          · intro p hp
            rcases List.mem_cons.mp hp with hp1 | hp2
            · rw [hp1]
              exact Nat.lt_succ_self _
            · exact lt_trans (S.2.2.1 p hp2) (Nat.lt_succ_self _)
          · intro b obj2 hb hlb
            rw [lookup_alloc] at hlb
            by_cases hbeq : h1.next = b
            · rw [if_pos hbeq] at hlb
              obtain rfl : fields = obj2 := Option.some.injEq _ _ |>.mp hlb
              exact fun p hp => S.2.2.2.2 p hp
            · rw [if_neg hbeq] at hlb
              exact S.2.2.2.1 b obj2 hb hlb

/-- Frame property of `denote` at fuel `F`: mutating an object below `n0`
cannot change the denotation of a value whose references stay at or above
`n0` in a heap closed above `n0`. -/
def DenoteValFrame (F : Nat) : Prop :=
  ∀ h n0 a k w v, a < n0 → ValOkAt n0 v → ClosedAbove n0 h →
    denote F (h.setField a k w) v = denote F h v

/-- The same frame property for `denoteFields`. -/
def DenoteFieldsFrame (F : Nat) : Prop :=
  ∀ h n0 a k w l, a < n0 → (∀ p ∈ l, ValOkAt n0 p.2) → ClosedAbove n0 h →
    denoteFields F (h.setField a k w) l = denoteFields F h l

theorem denoteFieldsFrame_of (F : Nat) (hP : DenoteValFrame F) : DenoteFieldsFrame F := by
  intro h n0 a k w l ha
  induction l with
  | nil =>
    intro _ _
    simp [denoteFields]
  | cons kv rest ih =>
    intro hl hca
    obtain ⟨k2, v⟩ := kv
    unfold denoteFields
    rw [hP h n0 a k w v ha (hl _ (List.mem_cons_self _ _)) hca]
    cases hd : denote F h v with
    | none => rfl
    | some t =>
      rw [ih (fun p hp => hl p (List.mem_cons_of_mem _ hp)) hca]

theorem denoteValFrame_all : ∀ F, DenoteValFrame F := by
  intro F
  induction F with
  | zero =>
    intro h n0 a k w v ha hv hca
    cases v with
    | prim p => simp [denote]
    | undef => simp [denote]
    | ref b => simp [denote]
  | succ F ih =>
    have hQ := denoteFieldsFrame_of F ih
    intro h n0 a k w v ha hv hca
    cases v with
    | prim p => simp [denote]
    | undef => simp [denote]
    | ref b =>
      have hb : n0 ≤ b := hv
      unfold denote
      rw [Heap.lookup_setField]
      rw [if_neg (by omega)]
      cases hl : h.lookup b with
      | none => rfl
      | some obj =>
        simp only [hQ h n0 a k w obj ha (hca b obj hb hl) hca]

theorem assocLookup_assocSet_self {α β : Type} [DecidableEq α] {key : α}
    {l : List (α × β)} {x : β} (h : assocLookup key l = some x) (v : β) :
    assocLookup key (assocSet key v l) = some v := by
  induction l with
  | nil => exact Option.noConfusion h
  | cons kv rest ih =>
    obtain ⟨k, w⟩ := kv
    by_cases hk : k = key
    · subst hk
      unfold assocSet
      rw [if_pos rfl]
      unfold assocLookup
      rw [if_pos rfl]
    · unfold assocLookup at h
      rw [if_neg hk] at h
      unfold assocSet
      rw [if_neg hk]
      unfold assocLookup
      rw [if_neg hk]
      exact ih h

theorem closedAbove_next {h : Heap} (hwf : h.WF) : ClosedAbove h.next h := by
  intro a obj ha hl
  exact absurd (Heap.lookup_lt_next hwf hl) (not_lt.mpr ha)

/-- Claim C3: after an accepted write, the stored value for the key is a
structurally independent deep copy — mutating any object that existed
before the write (in particular the caller-held value) leaves the
denotation of what `read` returns unchanged. -/
theorem stator_write_deep_copy_independent (opts : StatorOptions) (now : Nat)
    (key : String) (value : JsVal) (s s' : StatorState) (oldval : JsVal)
    (hwf : s.heap.WF)
    (hk : assocLookup key s.data = some oldval)
    (hne : oldval ≠ value)
    (hw : stator_write opts now key value s = (.ok (), s')) :
    ∃ v', stator_read key s' = .ok v' ∧
      ∀ F a k2 w, a < s.heap.next →
        denote F (s'.heap.setField a k2 w) v' = denote F s'.heap v' := by
  obtain ⟨v1, h1, hcl, hdata, hheap, _, _, _⟩ :=
    stator_write_ok_inv opts now key value s s' oldval hk hne hw
  have S := cloneValSpec_all (s.heap.mem.length + 1) s.heap value v1 h1 s.heap.next
    (le_refl _) hwf (closedAbove_next hwf) hcl
  refine ⟨v1, ?_, ?_⟩
  · unfold stator_read
    rw [hdata]
    rw [assocLookup_assocSet_self hk v1]
  · intro F a k2 w ha
    rw [hheap]
    exact denoteValFrame_all F h1 s.heap.next a k2 w v1 ha S.2.2.2.2 S.2.2.2.1

/-- A store holding a single unset key `y` over the one-object heap `h0`. -/
def sY : StatorState :=
  { data := [("y", JsVal.undef)]
    heap := h0
    debounce_timeout := none
    suppressed_event_count := 0
    dispatched := 0 }

/-- The state after writing the caller-held reference `ref 0` to `y`:
the object graph was copied to the fresh address 1. -/
def sY' : StatorState :=
  { data := [("y", JsVal.ref 1)]
    heap := { mem := [(1, [("f", JsVal.prim (JsPrim.num 1))]),
                      (0, [("f", JsVal.prim (JsPrim.num 1))])], next := 2 }
    debounce_timeout := some 15
    suppressed_event_count := 0
    dispatched := 0 }

/-- Witness for C3: writing the object at address 0 into `y` stores a copy
at the fresh address 1, and mutating any pre-existing address leaves the
stored value's denotation unchanged. -/
theorem stator_write_deep_copy_independent_witness :
    sY.heap.WF ∧
    assocLookup "y" sY.data = some JsVal.undef ∧
    JsVal.undef ≠ JsVal.ref 0 ∧
    stator_write opts10 5 "y" (JsVal.ref 0) sY = (.ok (), sY') ∧
    (∃ v', stator_read "y" sY' = .ok v' ∧
      ∀ F a k2 w, a < sY.heap.next →
        denote F (sY'.heap.setField a k2 w) v' = denote F sY'.heap v') := by
  have hcl : cloneVal (sY.heap.mem.length + 1) sY.heap (JsVal.ref 0) =
      some (JsVal.ref 1, sY'.heap) := by
    simp [cloneVal, cloneFields, sY, sY', h0, Heap.lookup, Heap.alloc, assocLookup]
  have hw : stator_write opts10 5 "y" (JsVal.ref 0) sY = (.ok (), sY') := by
    have h2 := stator_write_accepted opts10 5 "y" (JsVal.ref 0) sY JsVal.undef
      (JsVal.ref 1) sY'.heap rfl (by decide) rfl hcl
    exact h2
  exact ⟨by decide, rfl, by decide, hw,
    stator_write_deep_copy_independent opts10 5 "y" (JsVal.ref 0) sY sY' JsVal.undef
      (by decide) rfl (by decide) hw⟩
